import Mathlib

/-!
Shallow embedding of `src/infer/run_boltz_batch.py` (batch orchestration for
Boltz predictions): FASTA parsing, A3M query extraction, MSA reconciliation
with a corrected-artifact cache, cross-product task enumeration, job-name
sanitization, YAML config construction, and the sequential batch loop.

Files are modelled as lists of newline-free lines; the filesystem is a partial
map from paths to file contents.  Python string operations used by the script
(`str.strip`, `str.startswith(">")`, slicing `[1:]`, `str.replace(c, "")`,
`re.sub` over `[^a-zA-Z0-9]`, `str.strip("_")`) are modelled character-wise.
-/

/-- Whitespace characters stripped by Python `str.strip()`. -/
def isPySpace (c : Char) : Bool :=
  c == ' ' || c == '\t' || c == '\n' || c == '\r' || c == '\x0b' || c == '\x0c'

/-- Python `s.strip()`: remove leading and trailing whitespace. -/
def py_strip (s : String) : String :=
  String.mk (((s.toList.dropWhile isPySpace).reverse.dropWhile isPySpace).reverse)

/-- Python `s.startswith(">")`. -/
def starts_gt (s : String) : Bool :=
  match s.toList with
  | [] => false
  | c :: _ => c == '>'

/-- Python `s[1:]`. -/
def drop1 (s : String) : String :=
  String.mk (s.toList.drop 1)

/-- Python `s.replace(c, "")` for a one-character pattern: delete every
occurrence of `c`. -/
def py_remove_char (s : String) (c : Char) : String :=
  String.mk (s.toList.filter (fun a => !(a == c)))

/-- The gap-stripping applied to the A3M query before comparison:
`q_seq.replace("-", "").replace(".", "")`. -/
def gapStrip (s : String) : String :=
  py_remove_char (py_remove_char s '-') '.'

/-- Characters kept verbatim by the sanitizer: the regex class `[a-zA-Z0-9]`. -/
def isSafeChar (c : Char) : Bool :=
  ('a' ≤ c && c ≤ 'z') || ('A' ≤ c && c ≤ 'Z') || ('0' ≤ c && c ≤ '9')

/-- One step of `re.sub(r'[^a-zA-Z0-9]', '_', s)`: a character outside
`[a-zA-Z0-9]` becomes the separator. -/
def subst_sep (c : Char) : Char :=
  if isSafeChar c then c else '_'

/-- Python `re.sub(r'[^a-zA-Z0-9]', '_', s).strip('_')`: substitute every
unsafe character by `_`, then trim leading and trailing underscores
(`List.rdropWhile p l` is exactly `(l.reverse.dropWhile p).reverse`). -/
def sanitize (s : String) : String :=
  let mapped := s.toList.map subst_sep
  String.mk (List.rdropWhile (fun c => c == '_') (mapped.dropWhile (fun c => c == '_')))

/-- A filesystem path, split as pathlib does into parent directory and final
component (`Path.name`). -/
structure FPath where
  dir : String
  fname : String
deriving DecidableEq

/-- The filesystem: a partial map from paths to file contents (lists of
newline-free lines). -/
def FS : Type := FPath → Option (List String)

/-- Writing one file. -/
def FS.write (fs : FS) (p : FPath) (c : List String) : FS :=
  fun q => if q = p then some c else fs q

/-- The sequence-part accumulation of `get_a3m_query` over `lines[1:]`:
collect stripped lines until the first line starting with `>`. -/
def a3m_seq_parts : List String → List String
  | [] => []
  | l :: rest => if starts_gt l then [] else py_strip l :: a3m_seq_parts rest

/-- The `second_record_idx` computation of `get_a3m_query` over `lines[1:]`
with running index `i`: index of the first `>`-line, defaulting to the total
number of lines. -/
def a3m_second_idx : List String → Nat → Nat
  | [], i => i
  | l :: rest, i => if starts_gt l then i else a3m_second_idx rest (i + 1)

/-- The gap-stripped query of an artifact's lines: `q_seq` of `get_a3m_query`
with `-` and `.` removed, as compared in `ensure_msa_matches`. -/
def a3m_clean_query (lines : List String) : String :=
  gapStrip (String.join (a3m_seq_parts lines.tail))

/-- The corrected-artifact path
`corrected_msa_dir / f"corrected_{len(fasta_seq)}_{a3m_path.name}"`. -/
def cache_key_path (fasta_seq : String) (a3m_path : FPath) (d : String) : FPath :=
  ⟨d, "corrected_" ++ toString fasta_seq.length ++ "_" ++ a3m_path.fname⟩

/-- Content written for a corrected artifact: original header line (stripped),
the target sequence as the new query row, then `all_lines[second_record_idx:]`
unmodified. -/
def corrected_lines (fasta_seq : String) (lines : List String) : List String :=
  py_strip (lines.headD "") :: fasta_seq :: lines.drop (a3m_second_idx lines.tail 1)

/-- Result of one `ensure_msa_matches` call: filesystem after the call, the
returned artifact path, and how many file writes the call performed. -/
structure ReconcileResult where
  fs : FS
  path : FPath
  writes : Nat

/-- `ensure_msa_matches(fasta_seq, a3m_path, corrected_msa_dir)`.  Reading a
missing file makes `open` raise `IOError`; an empty file makes `get_a3m_query`
return `None` for the query, so `q_seq.replace` raises `AttributeError`.
Neither exception is caught anywhere in the script. -/
def ensure_msa_matches (fs : FS) (fasta_seq : String) (a3m_path : FPath)
    (d : String) : Except String ReconcileResult :=
  match fs a3m_path with
  | none => Except.error "IOError: cannot open alignment artifact"
  | some lines =>
    if lines.isEmpty then
      Except.error "AttributeError: NoneType query has no attribute replace"
    else if a3m_clean_query lines = fasta_seq then
      Except.ok ⟨fs, a3m_path, 0⟩
    else
      match fs (cache_key_path fasta_seq a3m_path d) with
      | some _ => Except.ok ⟨fs, cache_key_path fasta_seq a3m_path d, 0⟩
      | none =>
        Except.ok ⟨FS.write fs (cache_key_path fasta_seq a3m_path d)
            (corrected_lines fasta_seq lines),
          cache_key_path fasta_seq a3m_path d, 1⟩

/-- The flush step of `parse_fasta`: `if current_id: sequences.append(...)`.
Note Python truthiness: a `None` id and an empty-string id both flush
nothing. -/
def flush_record (cid : Option String) (acc : List String) : List (String × String) :=
  match cid with
  | none => []
  | some s => if s = "" then [] else [(s, String.join acc)]

/-- The line loop of `parse_fasta`: strip each line, skip blanks, a `>`-line
opens a new record named by the rest of the line, other lines extend the
current record's sequence. -/
def parse_fasta_go : List String → Option String → List String → List (String × String)
  | [], cid, acc => flush_record cid acc
  | l :: ls, cid, acc =>
    let t := py_strip l
    if t = "" then parse_fasta_go ls cid acc
    else if starts_gt t then
      flush_record cid acc ++ parse_fasta_go ls (some (drop1 t)) []
    else
      parse_fasta_go ls cid (acc ++ [t])

/-- `parse_fasta`: the ordered `(identifier, sequence)` records of a FASTA
file given as its list of lines. -/
def parse_fasta (lines : List String) : List (String × String) :=
  parse_fasta_go lines none []

/-- A sequence file as the enumeration sees it: its stem (`Path.stem`), its
file name (`Path.name`) and its contents. -/
structure FastaFile where
  stem : String
  fname : String
  lines : List String

/-- Python `dict.get` over the `a3m_files` stem-to-path index. -/
def dict_get : List (String × FPath) → String → Option FPath
  | [], _ => none
  | (s, p) :: rest, k => if s = k then some p else dict_get rest k

/-- `universal_a3m = list(a3m_files.values())[0] if len(a3m_files) == 1 else
None`. -/
def universal_a3m (index : List (String × FPath)) : Option FPath :=
  if index.length = 1 then index.head?.map (fun e => e.2) else none

/-- `a3m_files.get(f_path.stem) or universal_a3m` (a `Path` is always truthy,
so the fallback is consulted exactly when the lookup misses). -/
def resolve_a3m (index : List (String × FPath)) (stem : String) : Option FPath :=
  match dict_get index stem with
  | some p => some p
  | none => universal_a3m index

/-- One enumerated task descriptor, as built in the `all_tasks` loop. -/
structure TaskDesc where
  var_name : String
  var_seq : String
  lig_id : Option String
  smiles : Option String
  a3m_match : FPath
  source_fasta : String
deriving DecidableEq

/-- Tasks for one parsed variant: the ligand cross-product when `ligands` is
non-empty, else a single ligand-free task. -/
def tasks_for_variant (f : FastaFile) (p : FPath) (ligands : List (String × String))
    (vr : String × String) : List TaskDesc :=
  if ligands.isEmpty then [⟨vr.1, vr.2, none, none, p, f.fname⟩]
  else ligands.map (fun lg => ⟨vr.1, vr.2, some lg.1, some lg.2, p, f.fname⟩)

/-- Tasks contributed by one sequence file: none when no alignment artifact
resolves, else one group per parsed variant. -/
def tasks_for_file (index : List (String × FPath)) (ligands : List (String × String))
    (f : FastaFile) : List TaskDesc :=
  match resolve_a3m index f.stem with
  | none => []
  | some p => (parse_fasta f.lines).flatMap (tasks_for_variant f p ligands)

/-- The `all_tasks` enumeration over all discovered sequence files. -/
def enumerate_tasks (files : List FastaFile) (index : List (String × FPath))
    (ligands : List (String × String)) : List TaskDesc :=
  files.flatMap (tasks_for_file index ligands)

/-- Python truthiness of an optional string (`if lig_id:`, `if smiles:`):
`None` and the empty string are falsy. -/
def pyTruthy : Option String → Bool
  | none => false
  | some s => !(s = "")

/-- The job name: sanitized variant id, suffixed by `_` and the sanitized
ligand id when a ligand id is (truthily) present. -/
def job_name_of (t : TaskDesc) : String :=
  let sv := sanitize t.var_name
  if pyTruthy t.lig_id then sv ++ "_" ++ sanitize (t.lig_id.getD "") else sv

/-- The protein entry of the YAML config. -/
structure YamlProtein where
  id : String
  sequence : String
  msa : FPath
deriving DecidableEq

/-- The ligand entry of the YAML config. -/
structure YamlLigand where
  id : String
  smiles : String
deriving DecidableEq

/-- The YAML job configuration: one protein entry, an optional ligand entry,
and an optional affinity directive naming its binder chain. -/
structure YamlData where
  protein : YamlProtein
  ligand : Option YamlLigand
  affinity_binder : Option String
deriving DecidableEq

/-- Construction of `yaml_data` for one task: protein chain `"A"` always;
ligand chain `"B"` when `smiles` is truthy; affinity directive with binder
`"B"` when `smiles` is truthy and affinity prediction was requested. -/
def build_yaml (t : TaskDesc) (msa_to_use : FPath) (predict_affinity : Bool) : YamlData :=
  ⟨⟨"A", t.var_seq, msa_to_use⟩,
   if pyTruthy t.smiles then some ⟨"B", t.smiles.getD ""⟩ else none,
   if pyTruthy t.smiles && predict_affinity then some "B" else none⟩

/-- Terminal per-task states of the batch loop. -/
inductive TaskStatus where
  | succeeded : TaskStatus
  | failed : TaskStatus
deriving DecidableEq

/-- The record the loop leaves behind for one task: its job name, whether the
engine exited zero, and the captured diagnostic text on failure. -/
structure TaskResult where
  job_name : String
  status : TaskStatus
  diag : Option String
deriving DecidableEq

/-- The external engine as an oracle: exit code and stderr text per job
name (the command is determined by the job name, the affinity flag and fixed
paths). -/
def EngineOracle : Type := String → Nat × String

/-- The result the loop produces for one task, given the engine's behaviour:
`subprocess.run(check=True)` raises `CalledProcessError` exactly on a nonzero
exit, which the loop catches and logs before moving on. -/
def expected_result (engine : EngineOracle) (t : TaskDesc) : TaskResult :=
  let jn := job_name_of t
  if (engine jn).1 = 0 then ⟨jn, TaskStatus.succeeded, none⟩
  else ⟨jn, TaskStatus.failed, some (engine jn).2⟩

/-- The batch loop over `all_tasks`: per task, reconcile the MSA (an uncaught
exception here aborts the whole run), build and persist the YAML config,
invoke the engine, record success or failure, continue.  Returns the persisted
configs and the per-task outcomes. -/
def run_batch (fs : FS) (tasks : List TaskDesc) (d : String) (engine : EngineOracle)
    (predict_affinity : Bool) :
    Except String (List (String × YamlData) × List TaskResult) :=
  match tasks with
  | [] => Except.ok ([], [])
  | t :: rest =>
    match ensure_msa_matches fs t.var_seq t.a3m_match d with
    | Except.error e => Except.error e
    | Except.ok r =>
      match run_batch r.fs rest d engine predict_affinity with
      | Except.error e => Except.error e
      | Except.ok (cfgs, rs) =>
        Except.ok ((job_name_of t, build_yaml t r.path predict_affinity) :: cfgs,
          expected_result engine t :: rs)

/-! ## Helper lemmas -/

theorem head?_dropWhile_false {p : Char → Bool} :
    ∀ (l : List Char) {c : Char}, ((l.dropWhile p).head? = some c) → p c = false := by
  intro l
  induction l with
  | nil => intro c h; simp [List.dropWhile] at h
  | cons a t ih =>
    intro c h
    by_cases ha : p a = true
    · rw [List.dropWhile_cons_of_pos ha] at h
      exact ih h
    · rw [List.dropWhile_cons_of_neg ha] at h
      simp only [List.head?_cons, Option.some.injEq] at h
      rw [← h]
      exact Bool.not_eq_true _ |>.mp ha

theorem head?_rdropWhile_eq {p : Char → Bool} (l : List Char) {c : Char}
    (h : (List.rdropWhile p l).head? = some c) : l.head? = some c := by
  induction l using List.reverseRecOn with
  | nil => simp [List.rdropWhile_nil] at h
  | append_singleton t a ih =>
    rw [List.rdropWhile_concat] at h
    by_cases ha : p a = true
    · rw [if_pos ha] at h
      have ht := ih h
      cases t with
      | nil => simp at ht
      | cons b t' => simpa using ht
    · rw [if_neg ha] at h
      exact h

theorem mem_of_mem_dropWhile_chars {p : Char → Bool} :
    ∀ (l : List Char) {c : Char}, c ∈ l.dropWhile p → c ∈ l := by
  intro l
  induction l with
  | nil => intro c h; simp [List.dropWhile] at h
  | cons a t ih =>
    intro c h
    by_cases ha : p a = true
    · rw [List.dropWhile_cons_of_pos ha] at h
      exact List.mem_cons_of_mem a (ih h)
    · rw [List.dropWhile_cons_of_neg ha] at h
      exact h

theorem mem_of_mem_rdropWhile_chars {p : Char → Bool} (l : List Char) {c : Char}
    (h : c ∈ List.rdropWhile p l) : c ∈ l := by
  unfold List.rdropWhile at h
  rw [List.mem_reverse] at h
  have := mem_of_mem_dropWhile_chars l.reverse h
  rwa [List.mem_reverse] at this

/-! ## Claim theorems -/

/-- C9: identifier sanitization is deterministic and total; for every
identifier string the result contains only characters in `[A-Za-z0-9_]`,
neither starts nor ends with the separator `_`, and every character outside
`[A-Za-z0-9]` is mapped to the separator by the substitution step. -/
theorem sanitize_shape (s : String) :
    (∀ c, c ∈ (sanitize s).toList → (isSafeChar c || c == '_') = true) ∧
    (sanitize s).toList.head? ≠ some '_' ∧
    (sanitize s).toList.getLast? ≠ some '_' ∧
    (∀ c, isSafeChar c = false → subst_sep c = '_') := by
  have hmk : ∀ l : List Char, (String.mk l).toList = l := fun _ => rfl
  refine ⟨?_, ?_, ?_, ?_⟩
  · intro c hc
    simp only [sanitize, hmk] at hc
    have h1 := mem_of_mem_rdropWhile_chars _ hc
    have h2 := mem_of_mem_dropWhile_chars _ h1
    rcases List.mem_map.mp h2 with ⟨a, _, ha⟩
    by_cases hs : isSafeChar a = true
    · rw [subst_sep, if_pos hs] at ha
      rw [← ha]
      simp [hs]
    · rw [subst_sep, if_neg hs] at ha
      rw [← ha]
      simp
  · intro h
    simp only [sanitize, hmk] at h
    have h1 := head?_rdropWhile_eq _ h
    have h2 := head?_dropWhile_false _ h1
    simp at h2
  · intro h
    simp only [sanitize, hmk] at h
    rw [List.rdropWhile, List.getLast?_reverse] at h
    have h2 := head?_dropWhile_false _ h
    simp at h2
  · intro c hc
    rw [subst_sep, if_neg (by simp [hc])]

/-- C9 witness: the sanitizer evaluated at a concrete mixed identifier. -/
theorem sanitize_shape_witness :
    sanitize "WT.A2G/" = "WT_A2G" ∧
    (sanitize "WT.A2G/").toList.head? ≠ some '_' ∧
    subst_sep '.' = '_' :=
  ⟨by decide, (sanitize_shape "WT.A2G/").2.1,
    (sanitize_shape "WT.A2G/").2.2.2 '.' (by decide)⟩

/-- The YAML builder always uses chain id `"A"` for the protein, `"B"` for a
present ligand, and `"B"` as the affinity binder. -/
theorem build_yaml_ids (t : TaskDesc) (msa : FPath) (aff : Bool) :
    (build_yaml t msa aff).protein.id = "A" ∧
    (∀ lg, (build_yaml t msa aff).ligand = some lg → lg.id = "B") ∧
    (∀ b, (build_yaml t msa aff).affinity_binder = some b → b = "B") := by
  refine ⟨rfl, ?_, ?_⟩
  · intro lg h
    by_cases hs : pyTruthy t.smiles = true
    · simp only [build_yaml, hs, if_true, Option.some.injEq] at h
      rw [← h]
    · simp [build_yaml, hs] at h
  · intro b h
    by_cases hs : (pyTruthy t.smiles && aff) = true
    · simp only [build_yaml, hs, if_true, Option.some.injEq] at h
      exact h.symm
    · simp [build_yaml, hs] at h

/-- A concrete ligand-bearing task used by witnesses. -/
def exampleLigTask : TaskDesc :=
  ⟨"WT", "ACDE", some "LIG1", some "CCO", ⟨"msa", "wt.a3m"⟩, "wt.fasta"⟩

theorem length_tasks_for_variant (f : FastaFile) (p : FPath)
    (ligands : List (String × String)) (vr : String × String) :
    (tasks_for_variant f p ligands vr).length = max 1 ligands.length := by
  unfold tasks_for_variant
  cases ligands with
  | nil => simp
  | cons a l => simp

theorem sum_map_const_nat {α : Type} (l : List α) (c : Nat) :
    (l.map (fun _ => c)).sum = l.length * c := by
  induction l with
  | nil => simp
  | cons a t ih => simp [ih, Nat.succ_mul, Nat.add_comm]

theorem length_tasks_for_file (index : List (String × FPath))
    (ligands : List (String × String)) (f : FastaFile) :
    (tasks_for_file index ligands f).length =
      (if (resolve_a3m index f.stem).isSome then (parse_fasta f.lines).length
        else 0) * max 1 ligands.length := by
  unfold tasks_for_file
  cases h : resolve_a3m index f.stem with
  | none => simp
  | some p =>
    simp only [Option.isSome_some, if_true, List.length_flatMap]
    have h2 : List.map (List.length ∘ tasks_for_variant f p ligands) (parse_fasta f.lines)
        = (parse_fasta f.lines).map fun _ => max 1 ligands.length := by
      apply List.map_congr_left
      intro a _
      simpa [Function.comp] using length_tasks_for_variant f p ligands a
    rw [h2, sum_map_const_nat]

/-- C1: the enumeration produces exactly (number of sequence records in files
that resolve to an alignment artifact) × max(1, number of ligands) task
descriptors: the ligand cross-product per variant when ligands are supplied,
and one ligand-free descriptor per variant otherwise. -/
theorem enumerate_tasks_count (files : List FastaFile)
    (index : List (String × FPath)) (ligands : List (String × String)) :
    (enumerate_tasks files index ligands).length =
      (files.map (fun f =>
        if (resolve_a3m index f.stem).isSome then (parse_fasta f.lines).length
        else 0)).sum * max 1 ligands.length := by
  unfold enumerate_tasks
  induction files with
  | nil => simp
  | cons f fs ih =>
    simp only [List.flatMap_cons, List.length_append, List.map_cons, List.sum_cons,
      Nat.add_mul, ih, length_tasks_for_file]

/-- C7: alignment resolution per sequence file: exact stem match wins; with no
stem match the single shared artifact is used exactly when the index has one
entry; otherwise the file is unmatched and contributes zero tasks. -/
theorem resolution_policy (index : List (String × FPath)) (f : FastaFile)
    (files : List FastaFile) (ligands : List (String × String)) :
    (∀ p, dict_get index f.stem = some p → resolve_a3m index f.stem = some p) ∧
    (∀ s q, dict_get index f.stem = none → index = [(s, q)] →
      resolve_a3m index f.stem = some q) ∧
    (dict_get index f.stem = none → index.length ≠ 1 →
      resolve_a3m index f.stem = none) ∧
    (resolve_a3m index f.stem = none →
      enumerate_tasks (f :: files) index ligands = enumerate_tasks files index ligands) := by
  refine ⟨?_, ?_, ?_, ?_⟩
  · intro p h
    simp [resolve_a3m, h]
  · intro s q h hidx
    subst hidx
    simp [resolve_a3m, h, universal_a3m]
  · intro h hlen
    simp [resolve_a3m, h, universal_a3m, hlen]
  · intro h
    simp [enumerate_tasks, List.flatMap_cons, tasks_for_file, h]

/-- C7 witness: a file with no stem match against a two-entry index resolves
to nothing and contributes zero tasks. -/
theorem resolution_policy_witness :
    enumerate_tasks [⟨"x", "x.fasta", [">WT", "ACDE"]⟩]
      [("a", ⟨"m", "a.a3m"⟩), ("b", ⟨"m", "b.a3m"⟩)] [] = [] :=
  ((resolution_policy [("a", ⟨"m", "a.a3m"⟩), ("b", ⟨"m", "b.a3m"⟩)]
      ⟨"x", "x.fasta", [">WT", "ACDE"]⟩ [] []).2.2.2 (by decide)).trans rfl

theorem cache_key_path_ne (fasta_seq : String) (p : FPath) (d : String) :
    cache_key_path fasta_seq p d ≠ p := by
  intro h
  have hn := congrArg FPath.fname h
  simp only [cache_key_path] at hn
  have hl := congrArg String.length hn
  rw [String.length_append, String.length_append, String.length_append] at hl
  have h10 : ("corrected_" : String).length = 10 := rfl
  have h1 : ("_" : String).length = 1 := rfl
  omega

theorem ensure_eq_missing (fs : FS) (seq : String) (p : FPath) (d : String)
    (hf : fs p = none) :
    ensure_msa_matches fs seq p d =
      Except.error "IOError: cannot open alignment artifact" := by
  unfold ensure_msa_matches
  rw [hf]

theorem ensure_eq_empty (fs : FS) (seq : String) (p : FPath) (d : String)
    (lines : List String) (hf : fs p = some lines) (hne : lines.isEmpty = true) :
    ensure_msa_matches fs seq p d =
      Except.error "AttributeError: NoneType query has no attribute replace" := by
  unfold ensure_msa_matches
  rw [hf]
  simp [hne]

theorem ensure_eq_match (fs : FS) (seq : String) (p : FPath) (d : String)
    (lines : List String) (hf : fs p = some lines) (hne : lines.isEmpty = false)
    (hq : a3m_clean_query lines = seq) :
    ensure_msa_matches fs seq p d = Except.ok ⟨fs, p, 0⟩ := by
  unfold ensure_msa_matches
  rw [hf]
  simp [hne, hq]

theorem ensure_eq_cached (fs : FS) (seq : String) (p : FPath) (d : String)
    (lines c : List String) (hf : fs p = some lines) (hne : lines.isEmpty = false)
    (hq : a3m_clean_query lines ≠ seq)
    (hc : fs (cache_key_path seq p d) = some c) :
    ensure_msa_matches fs seq p d =
      Except.ok ⟨fs, cache_key_path seq p d, 0⟩ := by
  unfold ensure_msa_matches
  rw [hf]
  simp [hne, hq, hc]

theorem ensure_eq_write (fs : FS) (seq : String) (p : FPath) (d : String)
    (lines : List String) (hf : fs p = some lines) (hne : lines.isEmpty = false)
    (hq : a3m_clean_query lines ≠ seq)
    (hc : fs (cache_key_path seq p d) = none) :
    ensure_msa_matches fs seq p d =
      Except.ok ⟨FS.write fs (cache_key_path seq p d) (corrected_lines seq lines),
        cache_key_path seq p d, 1⟩ := by
  unfold ensure_msa_matches
  rw [hf]
  simp [hne, hq, hc]

theorem write_at_key_preserves (fs : FS) (seq : String) (p : FPath) (d : String)
    (c : List String) :
    FS.write fs (cache_key_path seq p d) c p = fs p := by
  unfold FS.write
  rw [if_neg (fun hpk => cache_key_path_ne seq p d hpk.symm)]

theorem write_at_key_reads_back (fs : FS) (seq : String) (p : FPath) (d : String)
    (c : List String) :
    FS.write fs (cache_key_path seq p d) c (cache_key_path seq p d) = some c := by
  unfold FS.write
  rw [if_pos rfl]

/-- C4: reconciliation is idempotent.  If one call succeeds, a second call on
the resulting filesystem with unchanged inputs returns the same artifact path,
leaves the filesystem untouched and performs zero writes, and the first call
performed at most one write — so two identical calls write at most once in
total. -/
theorem reconcile_idempotent (fs : FS) (seq : String) (p : FPath) (d : String)
    (r₁ : ReconcileResult)
    (h : ensure_msa_matches fs seq p d = Except.ok r₁) :
    ensure_msa_matches r₁.fs seq p d = Except.ok ⟨r₁.fs, r₁.path, 0⟩ ∧
    r₁.writes ≤ 1 := by
  cases hf : fs p with
  | none =>
    rw [ensure_eq_missing fs seq p d hf] at h
    simp at h
  | some lines =>
    by_cases hne : lines.isEmpty = true
    · rw [ensure_eq_empty fs seq p d lines hf hne] at h
      simp at h
    · have hne' : lines.isEmpty = false := by simpa using hne
      by_cases hq : a3m_clean_query lines = seq
      · rw [ensure_eq_match fs seq p d lines hf hne' hq] at h
        simp only [Except.ok.injEq] at h
        subst h
        exact ⟨ensure_eq_match fs seq p d lines hf hne' hq, by norm_num⟩
      · cases hc : fs (cache_key_path seq p d) with
        | some c =>
          rw [ensure_eq_cached fs seq p d lines c hf hne' hq hc] at h
          simp only [Except.ok.injEq] at h
          subst h
          exact ⟨ensure_eq_cached fs seq p d lines c hf hne' hq hc, by norm_num⟩
        | none =>
          rw [ensure_eq_write fs seq p d lines hf hne' hq hc] at h
          simp only [Except.ok.injEq] at h
          subst h
          refine ⟨?_, le_refl 1⟩
          have hf' := write_at_key_preserves fs seq p d (corrected_lines seq lines)
          rw [hf] at hf'
          exact ensure_eq_cached _ seq p d lines (corrected_lines seq lines) hf' hne' hq
            (write_at_key_reads_back fs seq p d (corrected_lines seq lines))

/-- A concrete artifact path used by reconciliation witnesses. -/
def examplePath : FPath := ⟨"msa", "wt.a3m"⟩

/-- A concrete filesystem whose only file is an artifact with query `AAAA`. -/
def exampleFsMis : FS :=
  fun q => if q = examplePath then some [">query desc", "AAAA", ">hit1", "GGGG"] else none

/-- The outcome of reconciling `ACDE` against `exampleFsMis`: a corrected
artifact is written at the cache key. -/
def exampleRec1 : ReconcileResult :=
  ⟨FS.write exampleFsMis (cache_key_path "ACDE" examplePath "corr")
      (corrected_lines "ACDE" [">query desc", "AAAA", ">hit1", "GGGG"]),
    cache_key_path "ACDE" examplePath "corr", 1⟩

/-- C4 witness: idempotence at the concrete mismatching artifact. -/
theorem reconcile_idempotent_witness :
    ensure_msa_matches exampleRec1.fs "ACDE" examplePath "corr" =
      Except.ok ⟨exampleRec1.fs, exampleRec1.path, 0⟩ ∧
    exampleRec1.writes ≤ 1 :=
  reconcile_idempotent exampleFsMis "ACDE" examplePath "corr" exampleRec1 (by rfl)

/-- C5: when the gap-stripped query of the artifact equals the target sequence
exactly, reconciliation returns the original artifact reference, leaves the
filesystem unchanged and performs no write. -/
theorem reconcile_match_returns_original (fs : FS) (seq : String) (p : FPath)
    (d : String) (lines : List String) (hf : fs p = some lines)
    (hne : lines.isEmpty = false) (hq : a3m_clean_query lines = seq) :
    ensure_msa_matches fs seq p d = Except.ok ⟨fs, p, 0⟩ :=
  ensure_eq_match fs seq p d lines hf hne hq

/-- A concrete filesystem whose only file is an artifact with gapped query
`AC-DE`. -/
def exampleFsGap : FS :=
  fun q => if q = examplePath then some [">query desc", "AC-DE"] else none

/-- C5 witness: the spec scenario — gapped query `AC-DE` against target
`ACDE` reuses the original artifact with zero writes. -/
theorem reconcile_match_returns_original_witness :
    ensure_msa_matches exampleFsGap "ACDE" examplePath "corr" =
      Except.ok ⟨exampleFsGap, examplePath, 0⟩ :=
  reconcile_match_returns_original exampleFsGap "ACDE" examplePath "corr"
    [">query desc", "AC-DE"] (by rfl) (by rfl) (by decide)

/-- C6: the correction cache key depends only on the target sequence's length
and the source artifact's file name, so two distinct equal-length mismatching
sequences collide: the first call writes the corrected artifact, and the
second call returns that very artifact path without writing. -/
theorem cache_key_collision (fs : FS) (lines : List String) (s₁ s₂ : String)
    (p : FPath) (d : String) (hf : fs p = some lines)
    (hne : lines.isEmpty = false)
    (hm₁ : a3m_clean_query lines ≠ s₁) (hm₂ : a3m_clean_query lines ≠ s₂)
    (_hd : s₁ ≠ s₂) (hlen : s₁.length = s₂.length)
    (hc : fs (cache_key_path s₁ p d) = none) :
    cache_key_path s₂ p d = cache_key_path s₁ p d ∧
    ensure_msa_matches fs s₁ p d =
      Except.ok ⟨FS.write fs (cache_key_path s₁ p d) (corrected_lines s₁ lines),
        cache_key_path s₁ p d, 1⟩ ∧
    ensure_msa_matches
        (FS.write fs (cache_key_path s₁ p d) (corrected_lines s₁ lines)) s₂ p d =
      Except.ok ⟨FS.write fs (cache_key_path s₁ p d) (corrected_lines s₁ lines),
        cache_key_path s₁ p d, 0⟩ := by
  have hkey : cache_key_path s₂ p d = cache_key_path s₁ p d := by
    simp [cache_key_path, hlen]
  refine ⟨hkey, ensure_eq_write fs s₁ p d lines hf hne hm₁ hc, ?_⟩
  have hf' := write_at_key_preserves fs s₁ p d (corrected_lines s₁ lines)
  rw [hf] at hf'
  have hc₂ : FS.write fs (cache_key_path s₁ p d) (corrected_lines s₁ lines)
      (cache_key_path s₂ p d) = some (corrected_lines s₁ lines) := by
    rw [hkey]
    exact write_at_key_reads_back fs s₁ p d (corrected_lines s₁ lines)
  have := ensure_eq_cached
    (FS.write fs (cache_key_path s₁ p d) (corrected_lines s₁ lines)) s₂ p d lines
    (corrected_lines s₁ lines) hf' hne hm₂ hc₂
  rwa [hkey] at this

/-- C6 witness: `ACDE` and `ACDF` (distinct, equal length) against the same
mismatching artifact share one corrected file. -/
theorem cache_key_collision_witness :
    cache_key_path "ACDF" examplePath "corr" = cache_key_path "ACDE" examplePath "corr" ∧
    ensure_msa_matches exampleFsMis "ACDE" examplePath "corr" =
      Except.ok ⟨FS.write exampleFsMis (cache_key_path "ACDE" examplePath "corr")
          (corrected_lines "ACDE" [">query desc", "AAAA", ">hit1", "GGGG"]),
        cache_key_path "ACDE" examplePath "corr", 1⟩ ∧
    ensure_msa_matches
        (FS.write exampleFsMis (cache_key_path "ACDE" examplePath "corr")
          (corrected_lines "ACDE" [">query desc", "AAAA", ">hit1", "GGGG"])) "ACDF"
        examplePath "corr" =
      Except.ok ⟨FS.write exampleFsMis (cache_key_path "ACDE" examplePath "corr")
          (corrected_lines "ACDE" [">query desc", "AAAA", ">hit1", "GGGG"]),
        cache_key_path "ACDE" examplePath "corr", 0⟩ :=
  cache_key_collision exampleFsMis [">query desc", "AAAA", ">hit1", "GGGG"]
    "ACDE" "ACDF" examplePath "corr" (by rfl) (by rfl) (by decide) (by decide)
    (by decide) (by decide) (by rfl)

/-- C8: for a mismatching target with no cached correction, the synthesized
artifact is exactly the original header line (stripped), then the target
sequence as the query row, then all original lines from the second record
onward; the original artifact is unchanged. -/
theorem reconcile_synthesis (fs : FS) (seq : String) (p : FPath) (d : String)
    (lines : List String) (hf : fs p = some lines) (hne : lines.isEmpty = false)
    (hm : a3m_clean_query lines ≠ seq)
    (hc : fs (cache_key_path seq p d) = none) :
    ensure_msa_matches fs seq p d =
      Except.ok ⟨FS.write fs (cache_key_path seq p d) (corrected_lines seq lines),
        cache_key_path seq p d, 1⟩ ∧
    corrected_lines seq lines =
      py_strip (lines.headD "") :: seq :: lines.drop (a3m_second_idx lines.tail 1) ∧
    FS.write fs (cache_key_path seq p d) (corrected_lines seq lines) p = some lines := by
  refine ⟨ensure_eq_write fs seq p d lines hf hne hm hc, rfl, ?_⟩
  rw [write_at_key_preserves fs seq p d (corrected_lines seq lines)]
  exact hf

/-- C8 witness: the corrected content synthesized for target `ACDE` against
the concrete mismatching artifact. -/
theorem reconcile_synthesis_witness :
    ensure_msa_matches exampleFsMis "ACDE" examplePath "corr" =
      Except.ok ⟨FS.write exampleFsMis (cache_key_path "ACDE" examplePath "corr")
          (corrected_lines "ACDE" [">query desc", "AAAA", ">hit1", "GGGG"]),
        cache_key_path "ACDE" examplePath "corr", 1⟩ ∧
    corrected_lines "ACDE" [">query desc", "AAAA", ">hit1", "GGGG"] =
      [">query desc", "ACDE", ">hit1", "GGGG"] ∧
    FS.write exampleFsMis (cache_key_path "ACDE" examplePath "corr")
        (corrected_lines "ACDE" [">query desc", "AAAA", ">hit1", "GGGG"]) examplePath =
      some [">query desc", "AAAA", ">hit1", "GGGG"] :=
  ⟨(reconcile_synthesis exampleFsMis "ACDE" examplePath "corr"
      [">query desc", "AAAA", ">hit1", "GGGG"] (by rfl) (by rfl) (by decide) (by rfl)).1,
   by decide,
   (reconcile_synthesis exampleFsMis "ACDE" examplePath "corr"
      [">query desc", "AAAA", ">hit1", "GGGG"] (by rfl) (by rfl) (by decide) (by rfl)).2.2⟩

theorem run_batch_results (fs : FS) (tasks : List TaskDesc) (d : String)
    (engine : EngineOracle) (aff : Bool) (cfgs : List (String × YamlData))
    (results : List TaskResult)
    (h : run_batch fs tasks d engine aff = Except.ok (cfgs, results)) :
    results = tasks.map (expected_result engine) := by
  induction tasks generalizing fs cfgs results with
  | nil =>
    simp only [run_batch, Except.ok.injEq, Prod.mk.injEq] at h
    rw [← h.2]
    simp
  | cons t rest ih =>
    cases he : ensure_msa_matches fs t.var_seq t.a3m_match d with
    | error e => simp [run_batch, he] at h
    | ok r =>
      cases hr : run_batch r.fs rest d engine aff with
      | error e => simp [run_batch, he, hr] at h
      | ok pr =>
        cases pr with
        | mk c₂ r₂ =>
          simp only [run_batch, he, hr, Except.ok.injEq, Prod.mk.injEq] at h
          rw [← h.2, List.map_cons]
          rw [ih r.fs c₂ r₂ hr]

theorem results_status_counts (rs : List TaskResult) :
    (rs.filter (fun r => r.status == TaskStatus.succeeded)).length +
      (rs.filter (fun r => r.status == TaskStatus.failed)).length = rs.length := by
  induction rs with
  | nil => simp
  | cons r t ih =>
    cases hs : r.status <;> simp [List.filter_cons, hs] <;> omega

/-- C3: when the batch loop completes, every enumerated task has exactly one
outcome determined solely by its own engine invocation — a nonzero exit marks
just that task FAILED with the engine's diagnostic recorded, no task is
skipped, and succeeded + failed outcomes add up to the total task count. -/
theorem batch_engine_failure_isolation (fs : FS) (tasks : List TaskDesc)
    (d : String) (engine : EngineOracle) (aff : Bool)
    (cfgs : List (String × YamlData)) (results : List TaskResult)
    (h : run_batch fs tasks d engine aff = Except.ok (cfgs, results)) :
    results = tasks.map (expected_result engine) ∧
    (results.filter (fun r => r.status == TaskStatus.succeeded)).length +
      (results.filter (fun r => r.status == TaskStatus.failed)).length =
      tasks.length ∧
    (∀ t ∈ tasks, (engine (job_name_of t)).1 ≠ 0 →
      expected_result engine t =
        ⟨job_name_of t, TaskStatus.failed, some (engine (job_name_of t)).2⟩) := by
  have hres := run_batch_results fs tasks d engine aff cfgs results h
  refine ⟨hres, ?_, ?_⟩
  · rw [results_status_counts results, hres, List.length_map]
  · intro t _ hcode
    simp [expected_result, hcode]

/-- A concrete protein-only task named `WT`. -/
def exampleTaskWT : TaskDesc := ⟨"WT", "ACDE", none, none, examplePath, "wt.fasta"⟩

/-- A concrete protein-only task named `V2`. -/
def exampleTaskV2 : TaskDesc := ⟨"V2", "ACDE", none, none, examplePath, "wt.fasta"⟩

/-- A concrete engine: job `WT` exits 0, everything else exits 1 with
diagnostic `boom`. -/
def exampleEngine : EngineOracle := fun jn => if jn = "WT" then (0, "") else (1, "boom")

/-- The configs the concrete two-task batch persists. -/
def exampleCfgs : List (String × YamlData) :=
  [("WT", ⟨⟨"A", "ACDE", examplePath⟩, none, none⟩),
   ("V2", ⟨⟨"A", "ACDE", examplePath⟩, none, none⟩)]

/-- The outcomes of the concrete two-task batch: `WT` succeeds, `V2` fails. -/
def exampleResults : List TaskResult :=
  [⟨"WT", TaskStatus.succeeded, none⟩, ⟨"V2", TaskStatus.failed, some "boom"⟩]

/-- C3 witness: the concrete two-task batch where the second engine call
fails. -/
theorem batch_engine_failure_isolation_witness :
    exampleResults = [exampleTaskWT, exampleTaskV2].map (expected_result exampleEngine) ∧
    (exampleResults.filter (fun r => r.status == TaskStatus.succeeded)).length +
      (exampleResults.filter (fun r => r.status == TaskStatus.failed)).length =
      ([exampleTaskWT, exampleTaskV2] : List TaskDesc).length ∧
    (∀ t ∈ ([exampleTaskWT, exampleTaskV2] : List TaskDesc),
      (exampleEngine (job_name_of t)).1 ≠ 0 →
      expected_result exampleEngine t =
        ⟨job_name_of t, TaskStatus.failed, some (exampleEngine (job_name_of t)).2⟩) :=
  batch_engine_failure_isolation exampleFsGap [exampleTaskWT, exampleTaskV2] "corr"
    exampleEngine false exampleCfgs exampleResults (by rfl)

/-- A concrete filesystem whose only artifact is an empty file. -/
def exampleFsEmpty : FS := fun q => if q = examplePath then some [] else none

/-- C2 counterexample: with the first task's alignment artifact empty, the
batch run raises to the caller (an uncaught `AttributeError`) instead of
recording the task FAILED and continuing with the remaining task. -/
theorem batch_reconcile_abort_counterexample :
    run_batch exampleFsEmpty [exampleTaskWT, exampleTaskV2] "corr" exampleEngine false =
      Except.error "AttributeError: NoneType query has no attribute replace" := by
  rfl

/-- C2 amended: an unreadable alignment artifact raises `IOError` and an empty
one raises `AttributeError`; either exception is uncaught, so the whole batch
aborts at that task — the task is not recorded FAILED and no later task
runs. -/
theorem batch_reconcile_abort (fs : FS) (t : TaskDesc) (rest : List TaskDesc)
    (d : String) (engine : EngineOracle) (aff : Bool) :
    (fs t.a3m_match = none →
      run_batch fs (t :: rest) d engine aff =
        Except.error "IOError: cannot open alignment artifact") ∧
    (fs t.a3m_match = some [] →
      run_batch fs (t :: rest) d engine aff =
        Except.error "AttributeError: NoneType query has no attribute replace") := by
  constructor
  · intro hf
    simp only [run_batch]
    rw [ensure_eq_missing fs t.var_seq t.a3m_match d hf]
  · intro hf
    simp only [run_batch]
    rw [ensure_eq_empty fs t.var_seq t.a3m_match d [] hf rfl]

/-- C2 amended witness: the concrete empty-artifact batch aborts with the
`AttributeError`. -/
theorem batch_reconcile_abort_witness :
    run_batch exampleFsEmpty [exampleTaskWT, exampleTaskV2] "corr" exampleEngine false =
      Except.error "AttributeError: NoneType query has no attribute replace" :=
  (batch_reconcile_abort exampleFsEmpty exampleTaskWT [exampleTaskV2] "corr"
      exampleEngine false).2 (by rfl)

/-- C10: every job configuration persisted by a completed batch run assigns
the fixed chain id `"A"` to its single protein entry, `"B"` to a present
ligand entry, and names `"B"` as the affinity binder — constants independent
of the task's variant and ligand identifiers. -/
theorem persisted_config_fixed_ids (fs : FS) (tasks : List TaskDesc) (d : String)
    (engine : EngineOracle) (aff : Bool) (cfgs : List (String × YamlData))
    (results : List TaskResult)
    (h : run_batch fs tasks d engine aff = Except.ok (cfgs, results)) :
    ∀ c ∈ cfgs, c.2.protein.id = "A" ∧
      (∀ lg, c.2.ligand = some lg → lg.id = "B") ∧
      (∀ b, c.2.affinity_binder = some b → b = "B") := by
  induction tasks generalizing fs cfgs results with
  | nil =>
    simp only [run_batch, Except.ok.injEq, Prod.mk.injEq] at h
    rw [← h.1]
    simp
  | cons t rest ih =>
    cases he : ensure_msa_matches fs t.var_seq t.a3m_match d with
    | error e => simp [run_batch, he] at h
    | ok r =>
      cases hr : run_batch r.fs rest d engine aff with
      | error e => simp [run_batch, he, hr] at h
      | ok pr =>
        cases pr with
        | mk c₂ r₂ =>
          simp only [run_batch, he, hr, Except.ok.injEq, Prod.mk.injEq] at h
          rw [← h.1]
          intro c hc
          rcases List.mem_cons.mp hc with hhd | htl
          · rw [hhd]
            exact build_yaml_ids t r.path aff
          · exact ih r.fs c₂ r₂ hr c htl

/-- C10 witness: the first config persisted by the concrete two-task batch
uses the fixed chain ids. -/
theorem persisted_config_fixed_ids_witness :
    (("WT", ⟨⟨"A", "ACDE", examplePath⟩, none, none⟩) : String × YamlData).2.protein.id = "A" ∧
    (∀ lg, (("WT", ⟨⟨"A", "ACDE", examplePath⟩, none, none⟩) : String × YamlData).2.ligand =
      some lg → lg.id = "B") ∧
    (∀ b, (("WT", ⟨⟨"A", "ACDE", examplePath⟩, none, none⟩) : String × YamlData).2.affinity_binder =
      some b → b = "B") :=
  persisted_config_fixed_ids exampleFsGap [exampleTaskWT, exampleTaskV2] "corr"
    exampleEngine false exampleCfgs exampleResults (by rfl)
    ("WT", ⟨⟨"A", "ACDE", examplePath⟩, none, none⟩) (by decide)
